import Mathlib

/-!
Verification development for `nototools/hb_input.py`.

The module under study walks an OpenType font's GSUB (glyph substitution)
table backwards: given a glyph, it derives a `(features, text)` pair that,
when shaped, should produce the glyph.  This file gives a shallow embedding
of the module: Python dictionaries become association lists whose later
entries win (matching dict insertion-overwrite semantics), the fontTools
record objects become structures, and the unbounded mutual recursion of
`input_from_name` / `_input_with_context` / `_sequence_from_glyph_names`
is made total with an explicit recursion budget (`fuel`); exhausting the
budget yields a distinguished `diverge` result, so non-termination of the
original is expressible.
-/

namespace HbInput

/-- Result of a resolver call.  `found fs t` models the Python function
returning the pair `(features, text)`; `noResult` models returning `None`;
`valueError i` models `raise ValueError(...)` mentioning lookup index `i`
(hb_input.py line 113); `typeError` models the `TypeError` raised when a
`None` returned by `input_from_name` is tuple-unpacked (line 121);
`crash` models any other uncaught exception on malformed tables (attribute
or index errors); `diverge` means the recursion budget ran out (the Python
has no budget and simply would not terminate). -/
inductive RResult where
  | found (features : List String) (text : String)
  | noResult
  | valueError (lookupIndex : Nat)
  | typeError
  | crash
  | diverge
deriving DecidableEq, Repr

/-- Lookup in an association list with Python-dict semantics: a later
binding of the same key overwrites an earlier one. -/
def dictGet {α β : Type} [DecidableEq α] : List (α × β) → α → Option β
  | [], _ => none
  | p :: rest, k =>
    match dictGet rest k with
    | some v => some v
    | none => if p.1 = k then some p.2 else none

/-- Models Python `unichr`: the one-character string for a code point. -/
def unichr (v : Nat) : String :=
  String.mk [Char.ofNat v]

/-- One ligature record of a Type 4 subtable: `LigGlyph` is the resulting
ligature glyph, `component` the remaining component glyphs (the first
component is the key of the enclosing `ligatures` dictionary). -/
structure LigatureRec where
  ligGlyph : String
  component : List String
deriving DecidableEq, Repr

/-- A `SubstLookupRecord` of a Type 6 (chaining contextual) subtable:
names the lookup index it triggers. -/
structure SubstLookupRecord where
  lookupListIndex : Nat
deriving DecidableEq, Repr

/-- A coverage table: the set of glyphs it covers, in table order. -/
structure Coverage where
  glyphs : List String
deriving DecidableEq, Repr

/-- A GSUB subtable.  fontTools objects are duck-typed; only the fields
the module reads are modelled, and each variant leaves the fields of the
other variants empty: `mapping` is read for Type 1 lookups, `ligatures`
for Type 4, and the remaining three fields for Type 6. -/
structure SubTable where
  mapping : List (String × String) := []
  ligatures : List (String × List LigatureRec) := []
  substLookupRecord : List SubstLookupRecord := []
  backtrackCoverage : List Coverage := []
  lookAheadCoverage : List Coverage := []
deriving DecidableEq, Repr

/-- A GSUB lookup: its type tag and its subtables. -/
structure Lookup where
  lookupType : Nat
  subTables : List SubTable
deriving DecidableEq, Repr

/-- A feature record: the feature tag and `Feature.LookupListIndex`, the
list of lookup indices the feature activates. -/
structure FeatureRecord where
  featureTag : String
  lookupListIndex : List Nat
deriving DecidableEq, Repr

/-- The GSUB table as read by the module: `FeatureList.FeatureRecord` and
`LookupList.Lookup` (the latter can be `None`, hb_input.py line 64). -/
structure GsubTable where
  featureRecords : List FeatureRecord
  lookupList : Option (List Lookup)
deriving DecidableEq, Repr

/-- The font data the module consumes: glyph order, advance widths, the
largest cmap (code point to glyph name, as delivered by
`summary.get_largest_cmap`), and the optional GSUB table. -/
structure Font where
  glyphOrder : List String
  width : String → Nat
  cmap : List (Nat × String)
  gsub : Option GsubTable

/-- Models `build_reverse_cmap` (line 126): invert the cmap into a glyph
name to code point dictionary; for duplicate glyph names the last cmap
entry wins, as in the Python dict comprehension. -/
def build_reverse_cmap (font : Font) : List (String × Nat) :=
  font.cmap.map (fun p => (p.2, p.1))

/-- An `HbInputGenerator` instance: the font plus the reverse cmap field. -/
structure HbInputGenerator where
  font : Font
  reverse_cmap : List (String × Nat)

/-- Models `HbInputGenerator.__init__` (line 28): stores the font and
builds the reverse cmap once. -/
def mkHbInputGenerator (font : Font) : HbInputGenerator :=
  ⟨font, build_reverse_cmap font⟩

/-- Models the feature scan of `_input_with_context` (lines 92 to 95):
the first feature record whose `LookupListIndex` contains the lookup
index supplies its tag. -/
def findFeature : List FeatureRecord → Nat → Option String
  | [], _ => none
  | r :: rest, li =>
    if li ∈ r.lookupListIndex then some r.featureTag else findFeature rest li

/-- Models the Type 1 scan (lines 71 to 74): the first mapping entry whose
substituted glyph equals `name` yields its input glyph. -/
def findInMapping : List (String × String) → String → Option String
  | [], _ => none
  | p :: rest, name =>
    if p.2 = name then some p.1 else findInMapping rest name

/-- Models the inner ligature scan (lines 79 to 81): the first ligature
record producing `name` yields the full component sequence
`first :: component`. -/
def findLigRec (first : String) : List LigatureRec → String → Option (List String)
  | [], _ => none
  | lig :: rest, name =>
    if lig.ligGlyph = name then some (first :: lig.component)
    else findLigRec first rest name

/-- Models the outer ligature scan (line 78): iterate the `ligatures`
dictionary in order. -/
def findInLigatures : List (String × List LigatureRec) → String → Option (List String)
  | [], _ => none
  | pr :: rest, name =>
    match findLigRec pr.1 pr.2 name with
    | some gs => some gs
    | none => findInLigatures rest name

/-- Outcome of the substitution scan of `input_from_name`: a Type 1 match
carries the input glyph and the owning lookup index; a Type 4 match
carries the assembled component glyph sequence. -/
inductive RuleMatch where
  | single (glyph : String) (lookupIndex : Nat)
  | liga (glyphs : List String)
deriving DecidableEq, Repr

/-- Models the subtable loop of `input_from_name` (line 67): within one
lookup, scan subtables in order; lookup types other than 1 and 4
contribute nothing. -/
def findRuleInSubTables (ltype : Nat) (li : Nat) : List SubTable → String → Option RuleMatch
  | [], _ => none
  | st :: rest, name =>
    if ltype = 1 then
      match findInMapping st.mapping name with
      | some glyph => some (RuleMatch.single glyph li)
      | none => findRuleInSubTables ltype li rest name
    else if ltype = 4 then
      match findInLigatures st.ligatures name with
      | some gs => some (RuleMatch.liga gs)
      | none => findRuleInSubTables ltype li rest name
    else none

/-- Models the lookup loop of `input_from_name` (line 66): enumerate
lookups with their indices; the first matching rule wins. -/
def findRuleAux : List Lookup → Nat → String → Option RuleMatch
  | [], _, _ => none
  | lk :: rest, li, name =>
    match findRuleInSubTables lk.lookupType li lk.subTables name with
    | some r => some r
    | none => findRuleAux rest (li + 1) name

/-- The full substitution scan of `input_from_name` (lines 66 to 83),
starting at lookup index 0. -/
def findRule (lookups : List Lookup) (name : String) : Option RuleMatch :=
  findRuleAux lookups 0 name

/-- Outcome of the chaining-rule scan of `_input_with_context`:
`found gs` is the synthesized glyph sequence; `indexError` models the
Python `IndexError` when a declared coverage has no glyphs; `notFound`
means the scan fell through. -/
inductive ChainFind where
  | found (glyphs : List String)
  | indexError
  | notFound
deriving DecidableEq, Repr

/-- Models lines 105 to 110: from a matching Type 6 subtable build the
two-glyph sequence, preferring lookahead context over backtrack context;
with both contexts empty the candidate is skipped (`notFound`). -/
def chainPair (st : SubTable) (glyph : String) : ChainFind :=
  match st.lookAheadCoverage with
  | c :: _ =>
    match c.glyphs with
    | x :: _ => .found [glyph, x]
    | [] => .indexError
  | [] =>
    match st.backtrackCoverage with
    | c :: _ =>
      match c.glyphs with
      | y :: _ => .found [y, glyph]
      | [] => .indexError
    | [] => .notFound

/-- Models the `SubstLookupRecord` loop (lines 102 to 110): records not
targeting `li`, and records whose subtable has neither context, are
skipped. -/
def findChainRecs (st : SubTable) (li : Nat) (glyph : String) : List SubstLookupRecord → ChainFind
  | [] => .notFound
  | sr :: rest =>
    if sr.lookupListIndex = li then
      match chainPair st glyph with
      | .notFound => findChainRecs st li glyph rest
      | r => r
    else findChainRecs st li glyph rest

/-- Models the subtable loop of the chaining scan (line 99). -/
def findChainSubTables (li : Nat) (glyph : String) : List SubTable → ChainFind
  | [] => .notFound
  | st :: rest =>
    match findChainRecs st li glyph st.substLookupRecord with
    | .notFound => findChainSubTables li glyph rest
    | r => r

/-- Models the lookup loop of the chaining scan (lines 98 to 101):
only Type 6 lookups are examined. -/
def findChain (li : Nat) (glyph : String) : List Lookup → ChainFind
  | [] => .notFound
  | lk :: rest =>
    if lk.lookupType = 6 then
      match findChainSubTables li glyph lk.subTables with
      | .notFound => findChain li glyph rest
      | r => r
    else findChain li glyph rest

/-- Core of `_sequence_from_glyph_names` (lines 116 to 123), abstracted
over the resolver for one glyph: resolve each glyph in order, threading
the accumulated features into the next resolution, and concatenate the
texts.  A `None` element result is tuple-unpacked in the Python, hence
`typeError`; other failures propagate. -/
def sequence_core (resolve : List String → String → RResult) : List String → List String → RResult
  | [], features => .found features ""
  | gl :: rest, features =>
    match resolve features gl with
    | .found fs t =>
      match sequence_core resolve rest fs with
      | .found fs2 t2 => .found fs2 (t ++ t2)
      | r => r
    | .noResult => .typeError
    | r => r

/-- Core of `_input_with_context` (lines 86 to 113), abstracted over the
resolver and the sequence assembler: first try a feature record that
activates `lookup_index` (appending its tag and resolving the trigger
glyph), then try a chaining rule, else raise the `ValueError` of
line 113. -/
def ctx_core (resolve : List String → String → RResult)
    (seq : List String → List String → RResult)
    (gsub : GsubTable) (glyph : String) (li : Nat) (features : List String) : RResult :=
  match findFeature gsub.featureRecords li with
  | some tag => resolve (features ++ [tag]) glyph
  | none =>
    match gsub.lookupList with
    | none => .crash
    | some lookups =>
      match findChain li glyph lookups with
      | .found gs => seq gs features
      | .indexError => .crash
      | .notFound => .valueError li

/-- Models `HbInputGenerator.input_from_name` (lines 47 to 83) with an
explicit recursion budget: one unit of fuel is spent per nested
`input_from_name` activation.  A glyph in the reverse cmap is a direct
hit (with optional two-space padding); otherwise the GSUB rules are
scanned and the first matching Type 1 or Type 4 rule is pursued. -/
def input_from_name (g : HbInputGenerator) : Nat → String → List String → Bool → RResult
  | 0, _, _, _ => .diverge
  | fuel + 1, name, features, pad =>
    match dictGet g.reverse_cmap name with
    | some v => .found features (if pad then "  " ++ unichr v else unichr v)
    | none =>
      match g.font.gsub with
      | none => .noResult
      | some gsub =>
        match gsub.lookupList with
        | none => .noResult
        | some lookups =>
          match findRule lookups name with
          | some (RuleMatch.single glyph li) =>
            ctx_core (fun fs gl => input_from_name g fuel gl fs false)
              (fun gs fs => sequence_core (fun fs2 gl => input_from_name g fuel gl fs2 false) gs fs)
              gsub glyph li features
          | some (RuleMatch.liga glyphs) =>
            sequence_core (fun fs gl => input_from_name g fuel gl fs false) glyphs features
          | none => .noResult

/-- Models `HbInputGenerator._sequence_from_glyph_names` with budget
`fuel` for each element resolution. -/
def sequence_from_glyph_names (g : HbInputGenerator) (fuel : Nat)
    (glyphs : List String) (features : List String) : RResult :=
  sequence_core (fun fs gl => input_from_name g fuel gl fs false) glyphs features

/-- Models `HbInputGenerator._input_with_context` with budget `fuel` for
the nested resolutions. -/
def input_with_context (g : HbInputGenerator) (fuel : Nat) (gsub : GsubTable)
    (glyph : String) (li : Nat) (features : List String) : RResult :=
  ctx_core (fun fs gl => input_from_name g fuel gl fs false)
    (fun gs fs => sequence_core (fun fs2 gl => input_from_name g fuel gl fs2 false) gs fs)
    gsub glyph li features

/-- Models the loop body of `all_inputs` (lines 38 to 44) over an explicit
glyph-name list: zero advance width selects padding, successful results
are collected in order, `None` results are dropped, and any exception
aborts the whole traversal (`Except.error`). -/
def all_inputs_from (g : HbInputGenerator) (fuel : Nat) :
    List String → Except RResult (List (List String × String))
  | [] => .ok []
  | name :: rest =>
    match input_from_name g fuel name [] (decide (g.font.width name = 0)) with
    | .found fs t =>
      match all_inputs_from g fuel rest with
      | .ok l => .ok ((fs, t) :: l)
      | e => e
    | .noResult => all_inputs_from g fuel rest
    | r => .error r

/-- Models `HbInputGenerator.all_inputs` (lines 32 to 45); the `warn`
printing has no observable effect on the result and is omitted. -/
def all_inputs (g : HbInputGenerator) (fuel : Nat) :
    Except RResult (List (List String × String)) :=
  all_inputs_from g fuel g.font.glyphOrder

/-! Concrete fonts used to instantiate the theorems below. -/

/-- Font for C1's witness: `A` maps to U+0041, a Type 1 rule substitutes
`A` by `B`, and feature `test` activates lookup 0. -/
def w1font : Font :=
  { glyphOrder := ["A", "B"], width := fun _ => 600,
    cmap := [(65, "A")],
    gsub := some { featureRecords := [⟨"test", [0]⟩],
                   lookupList := some [⟨1, [{ mapping := [("A", "B")] }]⟩] } }

def w1gen : HbInputGenerator := mkHbInputGenerator w1font

/-- Font for C1's counterexample: as `w1font` but a feature record tagged
`aaaa` also activating lookup 0 precedes the `test` record. -/
def cx1font : Font :=
  { glyphOrder := ["A", "B"], width := fun _ => 600,
    cmap := [(65, "A")],
    gsub := some { featureRecords := [⟨"aaaa", [0]⟩, ⟨"test", [0]⟩],
                   lookupList := some [⟨1, [{ mapping := [("A", "B")] }]⟩] } }

def cx1gen : HbInputGenerator := mkHbInputGenerator cx1font

def cx1gsub : GsubTable := cx1font.gsub.getD ⟨[], none⟩

/-- Font for C2's witness: a Type 4 rule forms ligature `L` from `A` and
`C`, both with direct cmap hits. -/
def w2font : Font :=
  { glyphOrder := ["A", "C", "L"], width := fun _ => 600,
    cmap := [(65, "A"), (67, "C")],
    gsub := some { featureRecords := [],
                   lookupList := some [⟨4, [{ ligatures := [("A", [⟨"L", ["C"]⟩])] }]⟩] } }

def w2gen : HbInputGenerator := mkHbInputGenerator w2font

/-- Font for C2's counterexample: the same ligature rule for `L`, but an
earlier Type 1 rule (activated by feature `aaaa`) also emits `L` from
`X`, so the scan never reaches the ligature. -/
def cx2font : Font :=
  { glyphOrder := ["A", "C", "L", "X"], width := fun _ => 600,
    cmap := [(65, "A"), (67, "C"), (88, "X")],
    gsub := some { featureRecords := [⟨"aaaa", [0]⟩],
                   lookupList := some
                     [⟨1, [{ mapping := [("X", "L")] }]⟩,
                      ⟨4, [{ ligatures := [("A", [⟨"L", ["C"]⟩])] }]⟩] } }

def cx2gen : HbInputGenerator := mkHbInputGenerator cx2font

def cx2gsub : GsubTable := cx2font.gsub.getD ⟨[], none⟩

/-- Font for C3's witness: two code points map to glyph `A`; the reverse
cmap keeps the later one. -/
def w3font : Font :=
  { glyphOrder := ["A"], width := fun _ => 600,
    cmap := [(65, "A"), (8491, "A")],
    gsub := none }

/-- Font for C4's witness: lookup 1 is activated by no feature; lookup 0
is a Type 6 lookup whose subtable targets lookup 1 with lookahead
context `X`. -/
def w4font : Font :=
  { glyphOrder := ["T", "X"], width := fun _ => 600,
    cmap := [(84, "T"), (88, "X")],
    gsub := some { featureRecords := [],
                   lookupList := some
                     [⟨6, [{ substLookupRecord := [⟨1⟩],
                             lookAheadCoverage := [⟨["X"]⟩] }]⟩] } }

def w4gen : HbInputGenerator := mkHbInputGenerator w4font

def w4gsub : GsubTable := w4font.gsub.getD ⟨[], none⟩

/-- Font for C4's counterexample: two Type 6 subtables target lookup 1;
the first declares only backtrack context `Y`, the second declares
lookahead context `X`. -/
def cx4font : Font :=
  { glyphOrder := ["T", "X", "Y"], width := fun _ => 600,
    cmap := [(84, "T"), (88, "X"), (89, "Y")],
    gsub := some { featureRecords := [],
                   lookupList := some
                     [⟨6, [{ substLookupRecord := [⟨1⟩],
                             backtrackCoverage := [⟨["Y"]⟩] },
                           { substLookupRecord := [⟨1⟩],
                             lookAheadCoverage := [⟨["X"]⟩] }]⟩] } }

def cx4gen : HbInputGenerator := mkHbInputGenerator cx4font

def cx4gsub : GsubTable := cx4font.gsub.getD ⟨[], none⟩

/-- GSUB table for C5's witness: no feature record mentions lookup 0 and
the only Type 6 record targeting it has empty contexts. -/
def w5gsub : GsubTable :=
  { featureRecords := [⟨"liga", [2]⟩],
    lookupList := some [⟨6, [{ substLookupRecord := [⟨0⟩] }]⟩] }

def w5gen : HbInputGenerator :=
  mkHbInputGenerator { glyphOrder := [], width := fun _ => 600, cmap := [], gsub := some w5gsub }

/-- Font for C6's counterexample: glyph `B` has zero advance width and is
reachable only through a Type 1 substitution, so its resolved text gets
no padding. -/
def cx6font : Font :=
  { glyphOrder := ["B"], width := fun _ => 0,
    cmap := [(65, "A")],
    gsub := some { featureRecords := [⟨"test", [0]⟩],
                   lookupList := some [⟨1, [{ mapping := [("A", "B")] }]⟩] } }

def cx6gen : HbInputGenerator := mkHbInputGenerator cx6font

/-- Font for C6's witness: glyph `A` is a direct hit with zero width. -/
def w6font : Font :=
  { glyphOrder := ["A"], width := fun _ => 0,
    cmap := [(65, "A")],
    gsub := none }

def w6gen : HbInputGenerator := mkHbInputGenerator w6font

/-- Font for C7's witness: no GSUB table at all. -/
def w7font : Font :=
  { glyphOrder := ["A", "Z"], width := fun _ => 600,
    cmap := [(65, "A")],
    gsub := none }

def w7gen : HbInputGenerator := mkHbInputGenerator w7font

/-- Generators for C9's witness: same reverse cmap and same GSUB table,
but different glyph orders and widths. -/
def w9gen1 : HbInputGenerator :=
  ⟨{ glyphOrder := ["A"], width := fun _ => 0, cmap := [(65, "A")], gsub := none }, [("A", 65)]⟩

def w9gen2 : HbInputGenerator :=
  ⟨{ glyphOrder := ["B", "A"], width := fun _ => 7, cmap := [(65, "A")], gsub := none }, [("A", 65)]⟩

/-- Font for C10: glyph `B` is absent from the cmap and the only rule for
it is a Type 1 substitution of `B` by itself, activated by feature
`test` — a substitution cycle. -/
def cyclicFont : Font :=
  { glyphOrder := ["B"], width := fun _ => 600,
    cmap := [],
    gsub := some { featureRecords := [⟨"test", [0]⟩],
                   lookupList := some [⟨1, [{ mapping := [("B", "B")] }]⟩] } }

def cyclicGen : HbInputGenerator := mkHbInputGenerator cyclicFont

/-- Font for C8's counterexample and witness: `A` is a direct hit, `Z` is
unreachable (no GSUB table). -/
def cx8font : Font :=
  { glyphOrder := ["A", "Z"], width := fun _ => 600,
    cmap := [(65, "A")],
    gsub := none }

def cx8gen : HbInputGenerator := mkHbInputGenerator cx8font

/-! Helper lemmas about the pure scan functions. -/

theorem dictGet_eq_none {α β : Type} [DecidableEq α] {l : List (α × β)} {k : α}
    (h : k ∉ l.map Prod.fst) : dictGet l k = none := by
  induction l with
  | nil => rfl
  | cons p rest ih =>
    simp only [List.map_cons, List.mem_cons, not_or] at h
    rw [dictGet, ih h.2, if_neg (fun e => h.1 e.symm)]

theorem dictGet_mem {α β : Type} [DecidableEq α] {l : List (α × β)} {k : α} {v : β}
    (h : dictGet l k = some v) : (k, v) ∈ l := by
  induction l with
  | nil => exact absurd h (by simp [dictGet])
  | cons p rest ih =>
    rw [dictGet] at h
    cases hr : dictGet rest k with
    | some w =>
      rw [hr] at h
      injection h with h
      subst h
      exact List.mem_cons_of_mem _ (ih hr)
    | none =>
      rw [hr] at h
      by_cases hpk : p.1 = k
      · rw [if_pos hpk] at h
        injection h with h
        subst h
        subst hpk
        exact List.mem_cons_self p rest
      · rw [if_neg hpk] at h
        exact absurd h (by simp)

theorem dictGet_of_mem_nodup {α β : Type} [DecidableEq α] {l : List (α × β)} {k : α} {v : β}
    (hn : (l.map Prod.fst).Nodup) (hm : (k, v) ∈ l) : dictGet l k = some v := by
  induction l with
  | nil => cases hm
  | cons p rest ih =>
    rw [List.map_cons, List.nodup_cons] at hn
    rw [dictGet]
    rcases List.mem_cons.mp hm with h | h
    · have hnone : dictGet rest k = none := by
        apply dictGet_eq_none
        intro hk
        exact hn.1 (h ▸ hk)
      rw [hnone, ← h, if_pos rfl]
    · rw [ih hn.2 h]

theorem char_toNat_of_valid {v : Nat} (h : v.isValidChar) : (Char.ofNat v).toNat = v := by
  rw [Char.ofNat, dif_pos h]
  rfl

theorem str_append_assoc (s t u : String) : s ++ t ++ u = s ++ (t ++ u) :=
  String.ext (by simp)

theorem findFeature_eq_none {rs : List FeatureRecord} {li : Nat}
    (h : ∀ r ∈ rs, li ∉ r.lookupListIndex) : findFeature rs li = none := by
  induction rs with
  | nil => rfl
  | cons r rest ih =>
    rw [findFeature, if_neg (h r (List.mem_cons_self r rest))]
    exact ih (fun r' hr' => h r' (List.mem_cons_of_mem r hr'))

theorem findChainRecs_notFound {st : SubTable} {li : Nat} {glyph : String}
    {recs : List SubstLookupRecord}
    (h : ∀ sr ∈ recs, sr.lookupListIndex = li →
        st.lookAheadCoverage = [] ∧ st.backtrackCoverage = []) :
    findChainRecs st li glyph recs = .notFound := by
  induction recs with
  | nil => rfl
  | cons sr rest ih =>
    rw [findChainRecs]
    have ih' := ih (fun sr' h' e => h sr' (List.mem_cons_of_mem sr h') e)
    by_cases hsr : sr.lookupListIndex = li
    · obtain ⟨hla, hbt⟩ := h sr (List.mem_cons_self sr rest) hsr
      have hcp : chainPair st glyph = .notFound := by
        rw [chainPair, hla, hbt]
      rw [if_pos hsr, hcp]
      exact ih'
    · rw [if_neg hsr]
      exact ih'

theorem findChainSubTables_notFound {li : Nat} {glyph : String} {sts : List SubTable}
    (h : ∀ st ∈ sts, ∀ sr ∈ st.substLookupRecord, sr.lookupListIndex = li →
        st.lookAheadCoverage = [] ∧ st.backtrackCoverage = []) :
    findChainSubTables li glyph sts = .notFound := by
  induction sts with
  | nil => rfl
  | cons st rest ih =>
    rw [findChainSubTables,
      findChainRecs_notFound (h st (List.mem_cons_self st rest))]
    exact ih (fun st' h' => h st' (List.mem_cons_of_mem st h'))

theorem findChain_notFound {lookups : List Lookup} {li : Nat} {glyph : String}
    (hc : ∀ lk ∈ lookups, lk.lookupType = 6 → ∀ st ∈ lk.subTables,
        ∀ sr ∈ st.substLookupRecord, sr.lookupListIndex = li →
          st.lookAheadCoverage = [] ∧ st.backtrackCoverage = []) :
    findChain li glyph lookups = .notFound := by
  induction lookups with
  | nil => rfl
  | cons lk rest ih =>
    rw [findChain]
    have ih' := ih (fun lk' h' => hc lk' (List.mem_cons_of_mem lk h'))
    by_cases h6 : lk.lookupType = 6
    · rw [if_pos h6,
        findChainSubTables_notFound (hc lk (List.mem_cons_self lk rest) h6)]
      exact ih'
    · rw [if_neg h6]
      exact ih'

theorem findInMapping_eq_none {mapping : List (String × String)} {name : String}
    (h : ∀ p ∈ mapping, p.2 ≠ name) : findInMapping mapping name = none := by
  induction mapping with
  | nil => rfl
  | cons p rest ih =>
    rw [findInMapping, if_neg (h p (List.mem_cons_self p rest))]
    exact ih (fun p' h' => h p' (List.mem_cons_of_mem p h'))

theorem findLigRec_eq_none {first : String} {ligs : List LigatureRec} {name : String}
    (h : ∀ lig ∈ ligs, lig.ligGlyph ≠ name) : findLigRec first ligs name = none := by
  induction ligs with
  | nil => rfl
  | cons lig rest ih =>
    rw [findLigRec, if_neg (h lig (List.mem_cons_self lig rest))]
    exact ih (fun lig' h' => h lig' (List.mem_cons_of_mem lig h'))

theorem findInLigatures_eq_none {ligs : List (String × List LigatureRec)} {name : String}
    (h : ∀ pr ∈ ligs, ∀ lig ∈ pr.2, lig.ligGlyph ≠ name) :
    findInLigatures ligs name = none := by
  induction ligs with
  | nil => rfl
  | cons pr rest ih =>
    rw [findInLigatures, findLigRec_eq_none (h pr (List.mem_cons_self pr rest))]
    exact ih (fun pr' h' => h pr' (List.mem_cons_of_mem pr h'))

theorem findRuleInSubTables_eq_none {ltype li : Nat} {sts : List SubTable} {name : String}
    (h1 : ltype = 1 → ∀ st ∈ sts, ∀ p ∈ st.mapping, p.2 ≠ name)
    (h4 : ltype = 4 → ∀ st ∈ sts, ∀ pr ∈ st.ligatures, ∀ lig ∈ pr.2, lig.ligGlyph ≠ name) :
    findRuleInSubTables ltype li sts name = none := by
  induction sts with
  | nil => rfl
  | cons st rest ih =>
    rw [findRuleInSubTables]
    by_cases e1 : ltype = 1
    · rw [if_pos e1, findInMapping_eq_none (h1 e1 st (List.mem_cons_self st rest))]
      exact ih (fun e st' h' => h1 e st' (List.mem_cons_of_mem st h'))
        (fun e st' h' => h4 e st' (List.mem_cons_of_mem st h'))
    · rw [if_neg e1]
      by_cases e4 : ltype = 4
      · rw [if_pos e4, findInLigatures_eq_none (h4 e4 st (List.mem_cons_self st rest))]
        exact ih (fun e st' h' => h1 e st' (List.mem_cons_of_mem st h'))
          (fun e st' h' => h4 e st' (List.mem_cons_of_mem st h'))
      · rw [if_neg e4]

theorem findRuleAux_eq_none {lookups : List Lookup} {name : String}
    (h : ∀ lk ∈ lookups,
      (lk.lookupType = 1 → ∀ st ∈ lk.subTables, ∀ p ∈ st.mapping, p.2 ≠ name)
      ∧ (lk.lookupType = 4 → ∀ st ∈ lk.subTables,
          ∀ pr ∈ st.ligatures, ∀ lig ∈ pr.2, lig.ligGlyph ≠ name)) :
    ∀ li, findRuleAux lookups li name = none := by
  induction lookups with
  | nil => intro li; rfl
  | cons lk rest ih =>
    intro li
    rw [findRuleAux,
      findRuleInSubTables_eq_none (h lk (List.mem_cons_self lk rest)).1
        (h lk (List.mem_cons_self lk rest)).2]
    exact ih (fun lk' h' => h lk' (List.mem_cons_of_mem lk h')) (li + 1)

theorem sequence_from_glyph_names_eq (gen : HbInputGenerator) (fuel : Nat)
    (glyphs features : List String) :
    sequence_from_glyph_names gen fuel glyphs features
      = sequence_core (fun fs gl => input_from_name gen fuel gl fs false) glyphs features :=
  rfl

theorem sequence_core_append (resolve : List String → String → RResult)
    (gs1 gs2 : List String) :
    ∀ features fs t, sequence_core resolve gs1 features = .found fs t →
      sequence_core resolve (gs1 ++ gs2) features
        = match sequence_core resolve gs2 fs with
          | .found fs2 t2 => .found fs2 (t ++ t2)
          | r => r := by
  induction gs1 with
  | nil =>
    intro features fs t h
    rw [sequence_core] at h
    injection h with h1 h2
    rw [List.nil_append, ← h1, ← h2]
    cases hs : sequence_core resolve gs2 features <;> simp [hs]
  | cons gl rest ih =>
    intro features fs t h
    rw [sequence_core] at h
    rw [List.cons_append, sequence_core]
    cases hres : resolve features gl with
    | found fs1 t1 =>
      rw [hres] at h
      simp only at h ⊢
      cases hseq : sequence_core resolve rest fs1 with
      | found fs2 t2 =>
        rw [hseq] at h
        simp only at h
        injection h with h1 h2
        subst h1
        subst h2
        rw [ih fs1 fs2 t2 hseq]
        cases hs : sequence_core resolve gs2 fs2 <;> simp [str_append_assoc]
      | noResult => rw [hseq] at h; cases h
      | valueError i => rw [hseq] at h; cases h
      | typeError => rw [hseq] at h; cases h
      | crash => rw [hseq] at h; cases h
      | diverge => rw [hseq] at h; cases h
    | noResult => rw [hres] at h; cases h
    | valueError i => rw [hres] at h; cases h
    | typeError => rw [hres] at h; cases h
    | crash => rw [hres] at h; cases h
    | diverge => rw [hres] at h; cases h

/-! Claim theorems. -/

/-- C9: `resolve` is deterministic and reads only the immutable reverse
cmap and GSUB table: any two generator states that agree on those two
components produce identical output for every argument triple (glyph
name, features, pad) at every recursion budget; in particular repeated
calls with identical arguments against an unmodified font coincide. -/
theorem input_from_name_deterministic (g1 g2 : HbInputGenerator)
    (hrev : g1.reverse_cmap = g2.reverse_cmap)
    (hgsub : g1.font.gsub = g2.font.gsub) :
    ∀ fuel name features pad,
      input_from_name g1 fuel name features pad
        = input_from_name g2 fuel name features pad := by
  intro fuel
  induction fuel with
  | zero =>
    intro name features pad
    rfl
  | succ m ih =>
    intro name features pad
    have hfun : (fun fs gl => input_from_name g1 m gl fs false)
        = fun fs gl => input_from_name g2 m gl fs false := by
      funext fs gl
      exact ih gl fs false
    rw [input_from_name, input_from_name, hrev, hgsub, hfun]

/-- C9 witness: two generators sharing the reverse cmap and GSUB table
but differing in glyph order and widths resolve `A` identically. -/
theorem input_from_name_deterministic_witness :
    input_from_name w9gen1 5 "A" [] false = input_from_name w9gen2 5 "A" [] false :=
  input_from_name_deterministic w9gen1 w9gen2 rfl rfl 5 "A" [] false

/-- C10: the resolver performs no cycle detection: on `cyclicFont`,
whose Type 1 rule substitutes `B` by itself with the owning lookup
activated by feature `test`, the mutual recursion of `input_from_name`
and `_input_with_context` never terminates — every recursion budget is
exhausted. -/
theorem cyclic_font_never_terminates :
    ∀ fuel features, input_from_name cyclicGen fuel "B" features false = .diverge := by
  intro fuel
  induction fuel with
  | zero =>
    intro features
    rfl
  | succ m ih =>
    intro features
    exact ih (features ++ ["test"])

/-- C5: when no feature record's lookup-index set contains `li` and
every Type 6 `SubstLookupRecord` targeting `li` sits in a subtable with
empty backtrack and lookahead contexts, `_input_with_context` raises
the `ValueError` naming the unresolved lookup index — a hard error, not
an absent result. -/
theorem unreachable_lookup_value_error (gen : HbInputGenerator) (fuel : Nat)
    (gsub : GsubTable) (glyph : String) (li : Nat) (features : List String)
    (lookups : List Lookup)
    (hl : gsub.lookupList = some lookups)
    (hf : ∀ r ∈ gsub.featureRecords, li ∉ r.lookupListIndex)
    (hc : ∀ lk ∈ lookups, lk.lookupType = 6 → ∀ st ∈ lk.subTables,
        ∀ sr ∈ st.substLookupRecord, sr.lookupListIndex = li →
          st.lookAheadCoverage = [] ∧ st.backtrackCoverage = []) :
    input_with_context gen fuel gsub glyph li features = .valueError li := by
  simp only [input_with_context, ctx_core, findFeature_eq_none hf, hl,
    findChain_notFound hc]

/-- C5 witness: lookup index 0 is mentioned by no feature record of
`w5gsub` and its only targeting Type 6 record has empty contexts, so the
context resolver reports the inconsistency for lookup 0. -/
theorem unreachable_lookup_value_error_witness :
    input_with_context w5gen 3 w5gsub "g" 0 [] = .valueError 0 :=
  unreachable_lookup_value_error w5gen 3 w5gsub "g" 0 []
    [⟨6, [{ substLookupRecord := [⟨0⟩] }]⟩] rfl (by decide) (by decide)

/-- C7: a glyph absent from the reverse cmap resolves to `noResult`
(absence, not an exception) whenever the font has no GSUB table, or the
lookup list is absent or empty, or no Type 1 mapping entry and no Type 4
ligature record anywhere produces the glyph; and removing every
occurrence of such a glyph from the traversed glyph order leaves the
`all_inputs` collection unchanged. -/
theorem unreachable_glyph_no_result (gen : HbInputGenerator) (name : String)
    (h0 : dictGet gen.reverse_cmap name = none)
    (hcase :
      gen.font.gsub = none
      ∨ (∃ gsub, gen.font.gsub = some gsub ∧ gsub.lookupList = none)
      ∨ (∃ gsub lookups, gen.font.gsub = some gsub ∧ gsub.lookupList = some lookups ∧
          ∀ lk ∈ lookups,
            (lk.lookupType = 1 → ∀ st ∈ lk.subTables, ∀ p ∈ st.mapping, p.2 ≠ name)
            ∧ (lk.lookupType = 4 → ∀ st ∈ lk.subTables,
                ∀ pr ∈ st.ligatures, ∀ lig ∈ pr.2, lig.ligGlyph ≠ name))) :
    (∀ fuel features pad, 1 ≤ fuel →
        input_from_name gen fuel name features pad = .noResult)
    ∧ (∀ fuel names, 1 ≤ fuel →
        all_inputs_from gen fuel names
          = all_inputs_from gen fuel (names.filter (fun n => n != name))) := by
  have hnr : ∀ fuel features pad, 1 ≤ fuel →
      input_from_name gen fuel name features pad = .noResult := by
    intro fuel features pad hfuel
    obtain ⟨m, rfl⟩ : ∃ m, fuel = m + 1 := ⟨fuel - 1, by omega⟩
    rcases hcase with hg | ⟨gsub, hg, hll⟩ | ⟨gsub, lookups, hg, hll, hno⟩
    · simp [input_from_name, h0, hg]
    · simp [input_from_name, h0, hg, hll]
    · have hfr : findRule lookups name = none := findRuleAux_eq_none hno 0
      simp [input_from_name, h0, hg, hll, hfr]
  refine ⟨hnr, ?_⟩
  intro fuel names hfuel
  induction names with
  | nil => rfl
  | cons n rest ih =>
    by_cases hn : n = name
    · subst hn
      simp only [List.filter_cons, bne_self_eq_false, Bool.false_eq_true, if_false]
      simp only [all_inputs_from,
        hnr fuel [] (decide (gen.font.width n = 0)) hfuel]
      exact ih
    · have hb : (n != name) = true := by simpa using hn
      simp only [List.filter_cons, hb, if_true]
      simp only [all_inputs_from]
      cases hres : input_from_name gen fuel n [] (decide (gen.font.width n = 0)) with
      | found fs t =>
        simp only
        rw [ih]
      | noResult =>
        simp only
        exact ih
      | valueError i => rfl
      | typeError => rfl
      | crash => rfl
      | diverge => rfl

/-- C7 witness: `w7font` has no GSUB table and `Z` has no cmap entry, so
`Z` resolves to nothing and dropping it from the glyph order leaves the
collected inputs unchanged. -/
theorem unreachable_glyph_no_result_witness :
    input_from_name w7gen 1 "Z" [] false = .noResult
    ∧ all_inputs_from w7gen 1 ["A", "Z"]
        = all_inputs_from w7gen 1 (["A", "Z"].filter (fun n => n != "Z")) := by
  have h := unreachable_glyph_no_result w7gen "Z" (by decide) (Or.inl rfl)
  exact ⟨h.1 1 [] false (le_refl 1), h.2 1 ["A", "Z"] (le_refl 1)⟩

/-- C1 (counterexample): in `cx1font` all conditions of the claim hold —
`B` has no cmap entry, `A` does, the Type 1 mapping sends `A` to `B`,
and lookup 0 appears in the lookup-index set of a feature record tagged
`test` — yet `resolve(B)` returns the tag `aaaa` of the feature record
that precedes the `test` record in table order, not `test`. -/
theorem c1_counterexample :
    (dictGet cx1gen.reverse_cmap "B" = none
      ∧ dictGet cx1gen.reverse_cmap "A" = some 65
      ∧ cx1gsub.lookupList = some [⟨1, [{ mapping := [("A", "B")] }]⟩]
      ∧ FeatureRecord.mk "test" [0] ∈ cx1gsub.featureRecords)
    ∧ input_from_name cx1gen 10 "B" [] false = .found ["aaaa"] "A"
    ∧ RResult.found ["aaaa"] "A" ≠ RResult.found ["test"] "A" := by
  decide

/-- C1 (amended): if `B` has no cmap entry, the first matching rule of
the GSUB scan for `B` is a Type 1 entry substituting `A` (which has a
direct cmap hit) inside lookup `k`, and the first feature record whose
lookup-index set contains `k` is tagged `test`, then `resolve(B)`
returns the features with `test` appended and the text of `A`. -/
theorem type1_first_match (gen : HbInputGenerator) (gsub : GsubTable)
    (lookups : List Lookup) (nameB nameA : String) (k : Nat) (v : Nat)
    (features : List String) (fuel : Nat)
    (hB : dictGet gen.reverse_cmap nameB = none)
    (hg : gen.font.gsub = some gsub)
    (hl : gsub.lookupList = some lookups)
    (hr : findRule lookups nameB = some (RuleMatch.single nameA k))
    (hf : findFeature gsub.featureRecords k = some "test")
    (hA : dictGet gen.reverse_cmap nameA = some v)
    (hfuel : 2 ≤ fuel) :
    input_from_name gen fuel nameB features false
      = .found (features ++ ["test"]) (unichr v) := by
  obtain ⟨m, rfl⟩ : ∃ m, fuel = m + 1 + 1 := ⟨fuel - 2, by omega⟩
  simp only [input_from_name, hB, hg, hl, hr, ctx_core, hf, hA, Bool.false_eq_true,
    if_false]

/-- C1 witness: in `w1font` the single feature record is tagged `test`,
so the amended resolution applies. -/
theorem type1_first_match_witness :
    input_from_name w1gen 2 "B" [] false = .found ([] ++ ["test"]) (unichr 65) :=
  type1_first_match w1gen ⟨[⟨"test", [0]⟩], some [⟨1, [{ mapping := [("A", "B")] }]⟩]⟩
    [⟨1, [{ mapping := [("A", "B")] }]⟩] "B" "A" 0 65 [] 2
    rfl rfl rfl rfl rfl rfl (le_refl 2)

/-- C2 (counterexample): in `cx2font` all conditions of the claim hold —
a Type 4 ligature record maps the component sequence `[A, C]` to `L`,
`L` has no cmap entry and both `A` and `C` do — yet `resolve(L)` is
decided by the earlier Type 1 rule substituting `X` by `L`: the text is
`X`, not the concatenation `AC`. -/
theorem c2_counterexample :
    (dictGet cx2gen.reverse_cmap "L" = none
      ∧ dictGet cx2gen.reverse_cmap "A" = some 65
      ∧ dictGet cx2gen.reverse_cmap "C" = some 67
      ∧ cx2gsub.lookupList = some
          [⟨1, [{ mapping := [("X", "L")] }]⟩,
           ⟨4, [{ ligatures := [("A", [⟨"L", ["C"]⟩])] }]⟩])
    ∧ input_from_name cx2gen 10 "L" [] false = .found ["aaaa"] "X"
    ∧ "X" ≠ "AC" := by
  decide

/-- C2 (amended): if `L` has no cmap entry, the first matching rule of
the GSUB scan for `L` is a Type 4 ligature record with component
sequence `[A, C]`, and both components have direct cmap hits, then
`resolve(L)` returns the unchanged features and the concatenation of the
two component texts in sequence order. -/
theorem type4_first_match (gen : HbInputGenerator) (gsub : GsubTable)
    (lookups : List Lookup) (nameL nameA nameC : String) (va vc : Nat)
    (features : List String) (fuel : Nat)
    (hL : dictGet gen.reverse_cmap nameL = none)
    (hg : gen.font.gsub = some gsub)
    (hl : gsub.lookupList = some lookups)
    (hr : findRule lookups nameL = some (RuleMatch.liga [nameA, nameC]))
    (hA : dictGet gen.reverse_cmap nameA = some va)
    (hC : dictGet gen.reverse_cmap nameC = some vc)
    (hfuel : 2 ≤ fuel) :
    input_from_name gen fuel nameL features false
      = .found features (unichr va ++ unichr vc) := by
  obtain ⟨m, rfl⟩ : ∃ m, fuel = m + 1 + 1 := ⟨fuel - 2, by omega⟩
  simp only [input_from_name, hL, hg, hl, hr, sequence_core, hA, hC,
    Bool.false_eq_true, if_false]
  simp

/-- C2 witness: in `w2font` the ligature rule for `L` is the only rule,
so the amended resolution applies. -/
theorem type4_first_match_witness :
    input_from_name w2gen 2 "L" [] false = .found [] (unichr 65 ++ unichr 67) :=
  type4_first_match w2gen ⟨[], some [⟨4, [{ ligatures := [("A", [⟨"L", ["C"]⟩])] }]⟩]⟩
    [⟨4, [{ ligatures := [("A", [⟨"L", ["C"]⟩])] }]⟩] "L" "A" "C" 65 67 [] 2
    rfl rfl rfl rfl rfl rfl (le_refl 2)

/-- C3: a glyph present in the reverse cmap is a direct hit: the
features pass through unchanged, the text is the single character of the
stored code point, that code point maps back to the glyph under the
original forward cmap (keys assumed distinct, as in a Python dict), and
the result is independent of the GSUB table — this case never recurses
into substitution rules. -/
theorem direct_hit_round_trip (font : Font) (name : String) (v : Nat)
    (features : List String) (fuel : Nat)
    (hnodup : (font.cmap.map Prod.fst).Nodup)
    (hrev : dictGet (build_reverse_cmap font) name = some v)
    (hfuel : 1 ≤ fuel) :
    input_from_name (mkHbInputGenerator font) fuel name features false
        = .found features (unichr v)
      ∧ dictGet font.cmap v = some name
      ∧ (unichr v).data = [Char.ofNat v]
      ∧ (v.isValidChar → (unichr v).data.map Char.toNat = [v])
      ∧ (∀ gsub2, input_from_name (mkHbInputGenerator { font with gsub := gsub2 })
          fuel name features false = .found features (unichr v)) := by
  obtain ⟨m, rfl⟩ : ∃ m, fuel = m + 1 := ⟨fuel - 1, by omega⟩
  have hfwd : dictGet font.cmap v = some name := by
    have hmem : (name, v) ∈ build_reverse_cmap font := dictGet_mem hrev
    rw [build_reverse_cmap] at hmem
    obtain ⟨p, hp, he⟩ := List.mem_map.mp hmem
    have he1 : p.2 = name := congrArg Prod.fst he
    have he2 : p.1 = v := congrArg Prod.snd he
    have : p = (v, name) := Prod.ext he2 he1
    exact dictGet_of_mem_nodup hnodup (this ▸ hp)
  refine ⟨?_, hfwd, rfl, ?_, ?_⟩
  · simp only [input_from_name, mkHbInputGenerator, hrev, Bool.false_eq_true, if_false]
  · intro hval
    simp [unichr, char_toNat_of_valid hval]
  · intro gsub2
    have hrev2 : dictGet (build_reverse_cmap { font with gsub := gsub2 }) name = some v := hrev
    simp only [input_from_name, mkHbInputGenerator, hrev2, Bool.false_eq_true, if_false]

/-- C3 witness: in `w3font` two code points map to `A`; the reverse cmap
keeps the later one (code point 8491), and the forward cmap sends 8491
back to `A`. -/
theorem direct_hit_round_trip_witness :
    input_from_name (mkHbInputGenerator w3font) 1 "A" [] false = .found [] (unichr 8491)
    ∧ dictGet w3font.cmap 8491 = some "A" := by
  have h := direct_hit_round_trip w3font "A" 8491 [] 1 (by decide) (by decide) (le_refl 1)
  exact ⟨h.1, h.2.1⟩

/-- C4 (counterexample): in `cx4font` lookup index 1 is targeted by a
Type 6 subtable that declares lookahead context `X` (and is activated by
no feature record), yet `_input_with_context` synthesizes `YT` — from
the preceding subtable's backtrack context — rather than `TX` as the
claim demands for the lookahead-declaring subtable. -/
theorem c4_counterexample :
    (findFeature cx4gsub.featureRecords 1 = none
      ∧ cx4gsub.lookupList = some
          [⟨6, [{ substLookupRecord := [⟨1⟩], backtrackCoverage := [⟨["Y"]⟩] },
                { substLookupRecord := [⟨1⟩], lookAheadCoverage := [⟨["X"]⟩] }]⟩]
      ∧ dictGet cx4gen.reverse_cmap "T" = some 84
      ∧ dictGet cx4gen.reverse_cmap "X" = some 88)
    ∧ input_with_context cx4gen 10 cx4gsub "T" 1 [] = .found [] "YT"
    ∧ "YT" ≠ "TX" := by
  decide

/-- C4 (amended): suppose no feature record activates lookup `k` and the
chaining scan (first Type 6 lookup, subtable, record in table order that
targets `k` with a non-empty context) determines the synthesized pair.
If that scan yields `[trigger, x]` (lookahead case) the synthesized text
is `text_of(trigger) ++ text_of(x)`; if it yields `[y, trigger]`
(backtrack case) the text is `text_of(y) ++ text_of(trigger)`; and a
subtable with both contexts empty is skipped by the scan. -/
theorem chain_context_resolution (gen : HbInputGenerator) (gsub : GsubTable)
    (lookups : List Lookup) (k : Nat) (trigger : String) (features : List String)
    (hf : findFeature gsub.featureRecords k = none)
    (hl : gsub.lookupList = some lookups) :
    (∀ fuel x vt vx, 1 ≤ fuel →
        findChain k trigger lookups = ChainFind.found [trigger, x] →
        dictGet gen.reverse_cmap trigger = some vt →
        dictGet gen.reverse_cmap x = some vx →
        input_with_context gen fuel gsub trigger k features
          = .found features (unichr vt ++ unichr vx))
    ∧ (∀ fuel y vt vy, 1 ≤ fuel →
        findChain k trigger lookups = ChainFind.found [y, trigger] →
        dictGet gen.reverse_cmap trigger = some vt →
        dictGet gen.reverse_cmap y = some vy →
        input_with_context gen fuel gsub trigger k features
          = .found features (unichr vy ++ unichr vt))
    ∧ (∀ st sts, st.lookAheadCoverage = [] → st.backtrackCoverage = [] →
        findChainSubTables k trigger (st :: sts) = findChainSubTables k trigger sts) := by
  refine ⟨?_, ?_, ?_⟩
  · intro fuel x vt vx hfuel hchain ht hx
    obtain ⟨m, rfl⟩ : ∃ m, fuel = m + 1 := ⟨fuel - 1, by omega⟩
    simp only [input_with_context, ctx_core, hf, hl, hchain, sequence_core,
      input_from_name, ht, hx, Bool.false_eq_true, if_false]
    simp
  · intro fuel y vt vy hfuel hchain ht hy
    obtain ⟨m, rfl⟩ : ∃ m, fuel = m + 1 := ⟨fuel - 1, by omega⟩
    simp only [input_with_context, ctx_core, hf, hl, hchain, sequence_core,
      input_from_name, ht, hy, Bool.false_eq_true, if_false]
    simp
  · intro st sts hla hbt
    rw [findChainSubTables, findChainRecs_notFound (fun sr _ _ => ⟨hla, hbt⟩)]

/-- C4 witness: in `w4font` the only chaining subtable targeting
lookup 1 declares lookahead context `X`, so the trigger `T` resolves to
the text `TX`. -/
theorem chain_context_resolution_witness :
    input_with_context w4gen 1 w4gsub "T" 1 [] = .found [] (unichr 84 ++ unichr 88) :=
  (chain_context_resolution w4gen w4gsub
      [⟨6, [{ substLookupRecord := [⟨1⟩], lookAheadCoverage := [⟨["X"]⟩] }]⟩]
      1 "T" [] rfl rfl).1 1 "X" 84 88 (le_refl 1) (by decide) rfl rfl

/-- C6 (counterexample): glyph `B` of `cx6font` has zero advance width,
yet because it is resolved through a Type 1 substitution — into which
the pad flag is not propagated — its collected text `A` carries no
two-space prefix, refuting the claimed equivalence. -/
theorem c6_counterexample :
    cx6gen.font.width "B" = 0
    ∧ cx6gen.font.glyphOrder = ["B"]
    ∧ all_inputs cx6gen 10 = .ok [(["test"], "A")]
    ∧ ("A").data.take 2 ≠ [' ', ' '] :=
  ⟨rfl, rfl, rfl, by decide⟩

/-- C6 (amended): for a glyph resolved by a direct cmap hit, the text
collected by `all_inputs` carries the two-space prefix exactly when the
glyph's advance width is zero; a glyph missing from the cmap resolves
identically whether or not padding was requested, since the pad flag is
not propagated into substitution recursion. -/
theorem pad_iff_zero_width_direct (gen : HbInputGenerator) (name : String) (v : Nat)
    (fuel : Nat)
    (hrev : dictGet gen.reverse_cmap name = some v)
    (hfuel : 1 ≤ fuel) :
    all_inputs_from gen fuel [name]
        = .ok [([], if gen.font.width name = 0 then "  " ++ unichr v else unichr v)]
    ∧ (∀ name2 features2, dictGet gen.reverse_cmap name2 = none →
        input_from_name gen fuel name2 features2 true
          = input_from_name gen fuel name2 features2 false) := by
  obtain ⟨m, rfl⟩ : ∃ m, fuel = m + 1 := ⟨fuel - 1, by omega⟩
  constructor
  · simp only [all_inputs_from, input_from_name, hrev]
    by_cases hw : gen.font.width name = 0
    · simp [hw]
    · simp [hw]
  · intro name2 features2 h2
    simp only [input_from_name, h2]

/-- C6 witness: in `w6font` glyph `A` is a zero-width direct hit, so its
collected text is padded with two spaces. -/
theorem pad_iff_zero_width_direct_witness :
    all_inputs_from w6gen 1 ["A"]
      = .ok [([], if w6gen.font.width "A" = 0 then "  " ++ unichr 65 else unichr 65)] :=
  (pad_iff_zero_width_direct w6gen "A" 65 1 rfl (le_refl 1)).1

/-- C8 (counterexample): resolving the unreachable glyph `Z` inside a
sequence raises the unpacking `TypeError`, which carries no lookup
index — the hard failure is not the indexed `ValueError` the claim
describes for a "no result" element. -/
theorem c8_counterexample :
    input_from_name cx8gen 10 "Z" [] false = .noResult
    ∧ sequence_from_glyph_names cx8gen 10 ["Z"] [] = .typeError
    ∧ (match sequence_from_glyph_names cx8gen 10 ["Z"] [] with
       | RResult.valueError i => some i
       | _ => none) = none := by
  decide

/-- C8 (amended): in `_sequence_from_glyph_names`, once the elements
resolved so far have produced `(fs, t)`, a next element whose resolution
returns `None` makes the whole call raise the unpacking `TypeError` — a
hard failure propagated to the caller, though one carrying no lookup
index — while a next element that resolves is handed exactly the
features `fs` accumulated so far, its own result threading into the
resolution of the remaining elements. -/
theorem sequence_element_failure (gen : HbInputGenerator) (fuel : Nat)
    (gs1 : List String) (gl : String) (gs2 : List String)
    (features fs : List String) (t : String)
    (h1 : sequence_from_glyph_names gen fuel gs1 features = .found fs t) :
    (input_from_name gen fuel gl fs false = .noResult →
        sequence_from_glyph_names gen fuel (gs1 ++ gl :: gs2) features = .typeError)
    ∧ (∀ fs2 t2, input_from_name gen fuel gl fs false = .found fs2 t2 →
        sequence_from_glyph_names gen fuel (gs1 ++ gl :: gs2) features
          = match sequence_from_glyph_names gen fuel gs2 fs2 with
            | .found fs3 t3 => .found fs3 (t ++ t2 ++ t3)
            | r => r) := by
  rw [sequence_from_glyph_names_eq] at h1
  have happ := sequence_core_append (fun fs' gl' => input_from_name gen fuel gl' fs' false)
    gs1 (gl :: gs2) features fs t h1
  constructor
  · intro hno
    rw [sequence_from_glyph_names_eq, happ]
    simp only [sequence_core, hno]
  · intro fs2 t2 hres
    rw [sequence_from_glyph_names_eq, happ]
    simp only [sequence_core, hres]
    rw [sequence_from_glyph_names_eq]
    cases hs : sequence_core (fun fs' gl' => input_from_name gen fuel gl' fs' false) gs2 fs2 with
    | found fs3 t3 =>
      simp only
      rw [str_append_assoc]
    | noResult => rfl
    | valueError i => rfl
    | typeError => rfl
    | crash => rfl
    | diverge => rfl

/-- C8 witness: after the direct hit `A`, the unresolvable element `Z`
makes the sequence assembly fail hard with the unpacking error. -/
theorem sequence_element_failure_witness :
    sequence_from_glyph_names cx8gen 5 ["A", "Z"] [] = .typeError :=
  (sequence_element_failure cx8gen 5 ["A"] "Z" [] [] [] "A" (by decide)).1 (by decide)

end HbInput

